import Mathlib

/-!
Verification of the invoice/credit payment-allocation calculator of the
`pymt` repository (Lightning Web Components).  The embedded code lives in

  * `force-app/main/default/lwc/accountPayment/accountPayment.js`
    (component `AccountPayment`: credit handling and the credit
    distributor `allocationsForPayment`),
  * the single-invoice component `InvoicePayment`
    (`handlePartialAmountChange`),
  * the multi-invoice component `InvoiceSelector`
    (`handleInvoiceSelect`, `handlePartialAmountChange`,
    `notifySelectionChange` and the backing `selectedInvoices` map).

Money amounts are JavaScript numbers used as currency decimals; the spec
mandates exact decimal arithmetic, so the embedding uses `ℚ`, on which
`Math.min`/`Math.max`, `+`, `-` and the comparisons coincide with the
JavaScript behaviour for the finite values involved.  A text input that was
run through `parseFloat(v) || 0` is modelled as an `Option ℚ`: `none` is a
non-numeric input (NaN, coerced to 0), `some q` a numeric one.
-/

namespace Pymt

/-- An allocation record `{invoiceId, amount, isFullPayment}` as built by
`InvoiceSelector` and consumed by `AccountPayment`. -/
structure Allocation where
  invoiceId : String
  amount : ℚ
  isFullPayment : Bool
deriving Repr, DecidableEq

/-- The slice of an invoice snapshot the embedded handlers read:
its id and its `balanceDue`.  (The remaining fields — totalAmount,
amountPaid, dueDate, status — are display-only in the embedded code.) -/
structure Invoice where
  id : String
  balanceDue : ℚ
deriving Repr, DecidableEq

/-- `parseFloat(event.target.value) || 0`: a non-numeric input (NaN) is
coerced to `0`; a numeric one is kept (including negative values — `|| 0`
only replaces falsy results, i.e. NaN and 0 itself, both yielding 0). -/
def parseNum (v : Option ℚ) : ℚ := v.getD 0

/-! ## AccountPayment (accountPayment.js) -/

/-- The `.map` phase of `allocationsForPayment` (accountPayment.js lines
204–211): a stateful map over the allocations, carrying `remainingCredit`;
each allocation consumes `creditForInvoice = Math.min(remainingCredit,
alloc.amount)`, which is subtracted from the allocation's amount and from
the counter. -/
def distributeCredit : ℚ → List Allocation → List Allocation
  | _, [] => []
  | remainingCredit, alloc :: rest =>
    let creditForInvoice := min remainingCredit alloc.amount
    { alloc with amount := alloc.amount - creditForInvoice } ::
      distributeCredit (remainingCredit - creditForInvoice) rest

/-- `get allocationsForPayment()` (accountPayment.js lines 197–213): if
credits are not applied or `creditAmountToApply <= 0`, the stored
`invoiceAllocations` are returned unchanged; otherwise the credit is
distributed sequentially and allocations with resulting
`amount > 0` are kept (`.filter(alloc => alloc.amount > 0)`). -/
def allocationsForPayment (applyCredits : Bool) (creditAmountToApply : ℚ)
    (invoiceAllocations : List Allocation) : List Allocation :=
  if ¬applyCredits ∨ creditAmountToApply ≤ 0 then
    invoiceAllocations
  else
    (distributeCredit creditAmountToApply invoiceAllocations).filter
      (fun alloc => decide (0 < alloc.amount))

/-- `handleApplyCreditsChange` (accountPayment.js lines 63–71): the new
`creditAmountToApply` after the toggle — `0` when unchecked, otherwise
`Math.min(totalAvailableCredit, totalAmount)`. -/
def handleApplyCreditsChange (checked : Bool)
    (totalAvailableCredit totalAmount : ℚ) : ℚ :=
  if ¬checked then 0 else min totalAvailableCredit totalAmount

/-- `handleCreditAmountChange` (accountPayment.js lines 73–79): the new
`creditAmountToApply` is `Math.min(parseFloat(value) || 0,
totalAvailableCredit, totalAmount)`.  Note: no lower clamp at 0. -/
def handleCreditAmountChange (value : Option ℚ)
    (totalAvailableCredit totalAmount : ℚ) : ℚ :=
  min (parseNum value) (min totalAvailableCredit totalAmount)

/-! ## InvoicePayment (single-invoice flow) -/

namespace InvoicePayment

/-- `handlePartialAmountChange` of the single-invoice `InvoicePayment`
component: the new `partialAmount` is
`Math.min(parseFloat(value) || 0, this.balanceDue)`.
Note: the source has no `Math.max(0, …)` here. -/
def handlePartialAmountChange (value : Option ℚ) (balanceDue : ℚ) : ℚ :=
  min (parseNum value) balanceDue

end InvoicePayment

/-! ## InvoiceSelector (multi-invoice flow)

`this.selectedInvoices` is a JavaScript `Map` keyed by invoice id; a `Map`
preserves insertion order, `set` on an existing key updates it in place,
`set` on a fresh key appends, and `delete` removes.  It is embedded as an
insertion-ordered association list. -/

namespace InvoiceSelector

/-- The `selectedInvoices` JavaScript `Map` (invoice id → selection
entry), as an insertion-ordered association list. -/
abbrev SelMap := List (String × Allocation)

/-- `Map.prototype.set`: update in place when the key is present,
append otherwise. -/
def mapSet (m : SelMap) (k : String) (v : Allocation) : SelMap :=
  if m.any (fun p => p.1 == k) then
    m.map (fun p => if p.1 == k then (k, v) else p)
  else
    m ++ [(k, v)]

/-- `Map.prototype.delete`: remove the entry with the given key. -/
def mapDelete (m : SelMap) (k : String) : SelMap :=
  m.filter (fun p => p.1 != k)

/-- `handleInvoiceSelect`, restricted to its effect on `selectedInvoices`
(the handler also flips the row's `selected` display flag, which is
presentation state): when checked, the invoice is looked up in
`this.invoices` and an entry `{invoiceId, amount: invoice.balanceDue,
isFullPayment: true}` is `set`; when unchecked the entry is deleted.
`none` models the TypeError the source would throw if the invoice id is
not found (`invoice.balanceDue` on `undefined`). -/
def handleInvoiceSelect (invoices : List Invoice) (m : SelMap)
    (invoiceId : String) (checked : Bool) : Option SelMap :=
  if checked then
    (invoices.find? (fun i => i.id == invoiceId)).map (fun invoice =>
      mapSet m invoiceId
        { invoiceId := invoiceId, amount := invoice.balanceDue,
          isFullPayment := true })
  else
    some (mapDelete m invoiceId)

/-- The clamp inside `InvoiceSelector.handlePartialAmountChange`:
`validAmount = Math.min(Math.max(0, amount), inv.balanceDue)` where
`amount = parseFloat(event.target.value) || 0`. -/
def validAmount (value : Option ℚ) (balanceDue : ℚ) : ℚ :=
  min (max 0 (parseNum value)) balanceDue

/-- `handlePartialAmountChange`, restricted to its effect on
`selectedInvoices`: if the invoice is selected, its entry is replaced by
`{invoiceId, amount: validAmount, isFullPayment: false}`; the handler also
stores `validAmount` as the row's `paymentAmount`. -/
def handlePartialAmountChange (invoices : List Invoice) (m : SelMap)
    (invoiceId : String) (value : Option ℚ) : SelMap :=
  match invoices.find? (fun i => i.id == invoiceId) with
  | none => m
  | some invoice =>
    if m.any (fun p => p.1 == invoiceId) then
      mapSet m invoiceId
        { invoiceId := invoiceId,
          amount := validAmount value invoice.balanceDue,
          isFullPayment := false }
    else m

/-- `notifySelectionChange` (the allocation builder): the event detail
`{allocations, totalAmount, invoiceCount}` computed from
`selectedInvoices` — `allocations = Array.from(map.values())`,
`totalAmount = allocations.reduce((sum, a) => sum + a.amount, 0)`,
`invoiceCount = allocations.length`. -/
def notifySelectionChange (m : SelMap) : List Allocation × ℚ × Nat :=
  let allocations := m.map (fun p => p.2)
  (allocations, allocations.foldl (fun sum a => sum + a.amount) 0,
    allocations.length)

end InvoiceSelector

/-! ## Derived quantities and helper lemmas -/

/-- Sum of the `amount` fields of a list of allocations. -/
def sumAmounts (l : List Allocation) : ℚ := (l.map Allocation.amount).sum

/-- One step of the credit distribution as §4.3 of the specification words
it: the state is the running remaining-credit counter together with the
output built so far; the credit consumed by the allocation is
`min(remaining-credit, allocation.amount)` and is subtracted from the
allocation's amount and from the counter. -/
def specGreedyStep (state : ℚ × List Allocation) (alloc : Allocation) :
    ℚ × List Allocation :=
  let consumed := min state.1 alloc.amount
  (state.1 - consumed,
    state.2 ++ [{ alloc with amount := alloc.amount - consumed }])

/-- The credit distribution as §4.3 of the specification words it: walk the
allocations in their given order with the remaining-credit counter
initialized to `creditToApply`.  Stated from the spec's words so that the
source embedding `distributeCredit` can be compared against it. -/
def specGreedyDistribution (creditToApply : ℚ)
    (allocs : List Allocation) : List Allocation :=
  (allocs.foldl specGreedyStep (creditToApply, [])).2

theorem sumAmounts_nil : sumAmounts [] = 0 := rfl

theorem sumAmounts_cons (a : Allocation) (l : List Allocation) :
    sumAmounts (a :: l) = a.amount + sumAmounts l := by
  simp [sumAmounts]

theorem sumAmounts_nonneg (l : List Allocation)
    (h : ∀ a ∈ l, 0 ≤ a.amount) : 0 ≤ sumAmounts l := by
  refine List.sum_nonneg ?_
  intro x hx
  obtain ⟨a, ha, rfl⟩ := List.mem_map.1 hx
  exact h a ha

theorem foldl_add_amount (l : List Allocation) (init : ℚ) :
    l.foldl (fun sum a => sum + a.amount) init = init + sumAmounts l := by
  induction l generalizing init with
  | nil => simp [sumAmounts]
  | cons a l ih =>
    simp only [List.foldl_cons, ih, sumAmounts_cons]
    ring

theorem distributeCredit_eq_specGreedy_aux (allocs : List Allocation) :
    ∀ (c : ℚ) (acc : List Allocation),
      (allocs.foldl specGreedyStep (c, acc)).2 =
        acc ++ distributeCredit c allocs := by
  induction allocs with
  | nil => intro c acc; simp [distributeCredit]
  | cons a l ih =>
    intro c acc
    simp only [List.foldl_cons, specGreedyStep, distributeCredit, ih,
      List.append_assoc, List.singleton_append]

theorem distributeCredit_mem_frame :
    ∀ (allocs : List Allocation) (c : ℚ) (b : Allocation),
      b ∈ distributeCredit c allocs →
        ∃ a ∈ allocs, b.invoiceId = a.invoiceId ∧
          b.isFullPayment = a.isFullPayment := by
  intro allocs
  induction allocs with
  | nil => intro c b hb; simp [distributeCredit] at hb
  | cons a l ih =>
    intro c b hb
    simp only [distributeCredit, List.mem_cons] at hb
    rcases hb with hb | hb
    · exact ⟨a, List.mem_cons_self a l, by rw [hb], by rw [hb]⟩
    · obtain ⟨a', ha', h1, h2⟩ := ih _ b hb
      exact ⟨a', List.mem_cons_of_mem a ha', h1, h2⟩

theorem distributeCredit_amount_nonneg :
    ∀ (allocs : List Allocation) (c : ℚ) (b : Allocation),
      b ∈ distributeCredit c allocs → 0 ≤ b.amount := by
  intro allocs
  induction allocs with
  | nil => intro c b hb; simp [distributeCredit] at hb
  | cons a l ih =>
    intro c b hb
    simp only [distributeCredit, List.mem_cons] at hb
    rcases hb with hb | hb
    · rw [hb]
      simp only [sub_nonneg]
      exact min_le_right c a.amount
    · exact ih _ b hb

theorem distributeCredit_amount_eq_zero :
    ∀ (allocs : List Allocation) (c : ℚ),
      (∀ a ∈ allocs, 0 ≤ a.amount) → sumAmounts allocs ≤ c →
      ∀ b ∈ distributeCredit c allocs, b.amount = 0 := by
  intro allocs
  induction allocs with
  | nil => intro c _ _ b hb; simp [distributeCredit] at hb
  | cons a l ih =>
    intro c hpos hsum b hb
    have ha : 0 ≤ a.amount := hpos a (List.mem_cons_self a l)
    have hl : ∀ x ∈ l, 0 ≤ x.amount :=
      fun x hx => hpos x (List.mem_cons_of_mem a hx)
    have hS : 0 ≤ sumAmounts l := sumAmounts_nonneg l hl
    rw [sumAmounts_cons] at hsum
    have hac : a.amount ≤ c := by linarith
    have hmin : min c a.amount = a.amount := min_eq_right hac
    simp only [distributeCredit, hmin, List.mem_cons] at hb
    rcases hb with hb | hb
    · rw [hb]; ring
    · exact ih (c - a.amount) hl (by linarith) b hb

theorem distributeCredit_sum :
    ∀ (allocs : List Allocation) (c : ℚ), 0 ≤ c →
      (∀ a ∈ allocs, 0 ≤ a.amount) →
      sumAmounts (distributeCredit c allocs) =
        sumAmounts allocs - min c (sumAmounts allocs) := by
  intro allocs
  induction allocs with
  | nil =>
    intro c hc _
    simp [distributeCredit, sumAmounts_nil, min_eq_right hc]
  | cons a l ih =>
    intro c hc hpos
    have ha : 0 ≤ a.amount := hpos a (List.mem_cons_self a l)
    have hl : ∀ x ∈ l, 0 ≤ x.amount :=
      fun x hx => hpos x (List.mem_cons_of_mem a hx)
    have hS : 0 ≤ sumAmounts l := sumAmounts_nonneg l hl
    have hc' : 0 ≤ c - min c a.amount :=
      sub_nonneg.2 (min_le_left c a.amount)
    simp only [distributeCredit, sumAmounts_cons, ih (c - min c a.amount)
      hc' hl]
    rcases le_total c a.amount with hca | hca
    · have h1 : min c a.amount = c := min_eq_left hca
      have h2 : min c (a.amount + sumAmounts l) = c :=
        min_eq_left (by linarith)
      rw [h1, h2, sub_self, min_eq_left hS]
      ring
    · have h1 : min c a.amount = a.amount := min_eq_right hca
      rcases le_total (c - a.amount) (sumAmounts l) with h4 | h4
      · have h2 : min (c - a.amount) (sumAmounts l) = c - a.amount :=
          min_eq_left h4
        have h3 : min c (a.amount + sumAmounts l) = c :=
          min_eq_left (by linarith)
        rw [h1, h2, h3]; ring
      · have h2 : min (c - a.amount) (sumAmounts l) = sumAmounts l :=
          min_eq_right h4
        have h3 : min c (a.amount + sumAmounts l) = a.amount + sumAmounts l :=
          min_eq_right (by linarith)
        rw [h1, h2, h3]; ring

theorem sumAmounts_filter_pos (l : List Allocation)
    (h : ∀ a ∈ l, 0 ≤ a.amount) :
    sumAmounts (l.filter fun a => decide (0 < a.amount)) = sumAmounts l := by
  induction l with
  | nil => rfl
  | cons a l ih =>
    have ha : 0 ≤ a.amount := h a (List.mem_cons_self a l)
    have hl : ∀ x ∈ l, 0 ≤ x.amount :=
      fun x hx => h x (List.mem_cons_of_mem a hx)
    by_cases hpos : 0 < a.amount
    · rw [List.filter_cons_of_pos (by simpa using hpos), sumAmounts_cons,
        sumAmounts_cons, ih hl]
    · have hz : a.amount = 0 := le_antisymm (not_lt.1 hpos) ha
      rw [List.filter_cons_of_neg (by simpa using hpos), sumAmounts_cons,
        hz, ih hl, zero_add]

/-! ## Claims -/

/-- C1, counterexample: applying credit 120 to the allocations
[(inv1, 100), (inv2, 50)] yields [(inv2, 30)], not [(inv2, 20)] as
claimed — inv1 absorbs 100 credit and is removed, inv2 absorbs the
remaining 20 credit, leaving amount 30. -/
theorem c1_order_sensitivity_cex :
    allocationsForPayment true 120
        [⟨"inv1", 100, true⟩, ⟨"inv2", 50, true⟩] = [⟨"inv2", 30, true⟩] ∧
      Allocation.mk "inv2" 30 true ≠ Allocation.mk "inv2" 20 true := by
  constructor
  · norm_num [allocationsForPayment, distributeCredit]
  · decide

/-- C1, amended: applying credit 120 to the allocations
[(inv1, 100), (inv2, 50)] with credits enabled yields exactly
[(inv2, 30)] — inv1 is fully absorbed and removed, inv2 is reduced by the
remaining 20 credit, and input order is preserved. -/
theorem c1_order_sensitivity :
    allocationsForPayment true 120
      [⟨"inv1", 100, true⟩, ⟨"inv2", 50, true⟩] = [⟨"inv2", 30, true⟩] := by
  norm_num [allocationsForPayment, distributeCredit]

/-- C2, counterexample: the single-invoice flow's
`InvoicePayment.handlePartialAmountChange` stores −5 for requested
amount −5 with balanceDue 100, while the claimed clamp
min(max(0, requested), balanceDue) would give 0. -/
theorem c2_amount_clamp_cex :
    InvoicePayment.handlePartialAmountChange (some (-5)) 100 = -5 ∧
      min (max 0 (-5 : ℚ)) 100 = 0 ∧ (-5 : ℚ) ≠ 0 :=
  ⟨by decide, by decide, by decide⟩

/-- C2, amended: the multi-invoice flow
(`InvoiceSelector.handlePartialAmountChange`) clamps to
min(max(0, requested), balanceDue), so its stored amount is always in
[0, balanceDue] when balanceDue ≥ 0; the single-invoice flow
(`InvoicePayment.handlePartialAmountChange`) clamps only from above, to
min(requested-coerced, balanceDue), so it never exceeds balanceDue but can
store a negative amount. -/
theorem c2_amount_clamp (value : Option ℚ) (balanceDue : ℚ)
    (h : 0 ≤ balanceDue) :
    (InvoiceSelector.validAmount value balanceDue =
        min (max 0 (parseNum value)) balanceDue ∧
      0 ≤ InvoiceSelector.validAmount value balanceDue ∧
      InvoiceSelector.validAmount value balanceDue ≤ balanceDue) ∧
    (InvoicePayment.handlePartialAmountChange value balanceDue =
        min (parseNum value) balanceDue ∧
      InvoicePayment.handlePartialAmountChange value balanceDue ≤
        balanceDue) := by
  exact ⟨⟨rfl, le_min (le_max_left 0 _) h, min_le_right _ _⟩,
    rfl, min_le_right _ _⟩

/-- C2, witness: the amended clamp bounds at requested −7 and
balanceDue 100. -/
theorem c2_amount_clamp_witness :
    (0 : ℚ) ≤ 100 ∧
      ((InvoiceSelector.validAmount (some (-7)) 100 =
          min (max 0 (parseNum (some (-7)))) 100 ∧
        0 ≤ InvoiceSelector.validAmount (some (-7)) 100 ∧
        InvoiceSelector.validAmount (some (-7)) 100 ≤ 100) ∧
       (InvoicePayment.handlePartialAmountChange (some (-7)) 100 =
          min (parseNum (some (-7))) 100 ∧
        InvoicePayment.handlePartialAmountChange (some (-7)) 100 ≤ 100)) :=
  ⟨by decide, c2_amount_clamp (some (-7)) 100 (by decide)⟩

/-- C3, counterexample: with credits disabled, `allocationsForPayment`
passes the stored allocations through unchanged, so a zero-amount
allocation reaches the submission payload. -/
theorem c3_positive_amounts_cex :
    Allocation.mk "inv1" 0 false ∈
        allocationsForPayment false 0 [⟨"inv1", 0, false⟩] ∧
      ¬ 0 < (Allocation.mk "inv1" 0 false).amount := by
  constructor
  · simp [allocationsForPayment]
  · decide

/-- C3, amended: every allocation produced by `allocationsForPayment`
when credit is actually applied (credits enabled and
creditAmountToApply > 0) has amount > 0; with credits disabled the input
allocations pass through unfiltered. -/
theorem c3_positive_amounts (c : ℚ) (allocs : List Allocation) :
    (∀ a ∈ allocationsForPayment true c allocs, 0 < c → 0 < a.amount) ∧
      allocationsForPayment false c allocs = allocs := by
  constructor
  · intro a ha hc
    have hc' : ¬ c ≤ 0 := not_le.2 hc
    simp only [allocationsForPayment] at ha
    rw [if_neg (by simp [hc'])] at ha
    exact of_decide_eq_true (List.mem_filter.1 ha).2
  · simp [allocationsForPayment]

/-- C3, witness: the surviving allocation (inv2, 30) of the credit-120
run has positive amount. -/
theorem c3_positive_amounts_witness :
    0 < (Allocation.mk "inv2" 30 true).amount :=
  (c3_positive_amounts 120 [⟨"inv1", 100, true⟩, ⟨"inv2", 50, true⟩]).1
    ⟨"inv2", 30, true⟩
    (by norm_num [allocationsForPayment, distributeCredit]) (by norm_num)

/-- C4, confirmed: the `.map` phase of `allocationsForPayment` is exactly
the spec's greedy walk — remaining-credit counter initialized to the
credit to apply, each allocation consuming min(remaining, amount),
subtracted from both — and it is order-dependent rather than
proportional: credit 100 over [(first, 100), (second, 100)] leaves
amounts [0, 100], not the proportional [50, 50]. -/
theorem c4_greedy_distribution :
    (∀ (c : ℚ) (allocs : List Allocation),
        distributeCredit c allocs = specGreedyDistribution c allocs) ∧
      (distributeCredit 100
          [⟨"first", 100, true⟩, ⟨"second", 100, true⟩]).map
          Allocation.amount = [0, 100] ∧
      ([0, 100] : List ℚ) ≠ [50, 50] := by
  refine ⟨fun c allocs => ?_, by norm_num [distributeCredit], by decide⟩
  rw [specGreedyDistribution, distributeCredit_eq_specGreedy_aux,
    List.nil_append]

/-- C5, confirmed: the event detail of
`InvoiceSelector.notifySelectionChange` carries a total equal to the sum
of the amounts of the selection entries and an allocation list whose
length equals the number of entries; the empty selection yields
([], 0, 0). -/
theorem c5_builder_total_and_count :
    (∀ m : InvoiceSelector.SelMap,
        (InvoiceSelector.notifySelectionChange m).2.1 =
            sumAmounts (m.map fun p => p.2) ∧
          (InvoiceSelector.notifySelectionChange m).1.length = m.length) ∧
      InvoiceSelector.notifySelectionChange [] = ([], 0, 0) := by
  refine ⟨fun m => ⟨?_, ?_⟩, rfl⟩
  · simp [InvoiceSelector.notifySelectionChange, foldl_add_amount]
  · simp [InvoiceSelector.notifySelectionChange]

/-- C6, counterexample: `handleCreditAmountChange` stores −5 for input −5
(available credit 100, total 50), violating the claimed lower bound
0 ≤ creditAmountToApply — the handler has no lower clamp. -/
theorem c6_credit_clamp_cex :
    handleCreditAmountChange (some (-5)) 100 50 = -5 ∧ ¬ (0 ≤ (-5 : ℚ)) :=
  ⟨by decide, by decide⟩

/-- C6, amended: after a credit-toggle event the stored credit satisfies
0 ≤ credit ≤ min(totalAvailableCredit, totalAmount) whenever both bounds
are non-negative; after a credit-amount change the stored credit never
exceeds min(totalAvailableCredit, totalAmount), and it is non-negative
only when the parsed input is non-negative. -/
theorem c6_credit_clamp (value : Option ℚ) (checked : Bool)
    (totalAvailableCredit totalAmount : ℚ)
    (hcredit : 0 ≤ totalAvailableCredit) (htotal : 0 ≤ totalAmount) :
    (0 ≤ handleApplyCreditsChange checked totalAvailableCredit totalAmount ∧
      handleApplyCreditsChange checked totalAvailableCredit totalAmount ≤
        min totalAvailableCredit totalAmount) ∧
    handleCreditAmountChange value totalAvailableCredit totalAmount ≤
        min totalAvailableCredit totalAmount ∧
    (0 ≤ parseNum value →
      0 ≤ handleCreditAmountChange value totalAvailableCredit totalAmount) := by
  refine ⟨?_, min_le_right _ _, fun hv => le_min hv (le_min hcredit htotal)⟩
  unfold handleApplyCreditsChange
  split_ifs with h
  · exact ⟨le_min hcredit htotal, le_refl _⟩
  · exact ⟨le_refl 0, le_min hcredit htotal⟩

/-- C6, witness: the amended bounds at input 10, available credit 100,
total 50, toggle checked. -/
theorem c6_credit_clamp_witness :
    (0 : ℚ) ≤ 100 ∧ (0 : ℚ) ≤ 50 ∧
      ((0 ≤ handleApplyCreditsChange true 100 50 ∧
          handleApplyCreditsChange true 100 50 ≤ min 100 50) ∧
        handleCreditAmountChange (some 10) 100 50 ≤ min 100 50 ∧
        (0 ≤ parseNum (some 10) →
          0 ≤ handleCreditAmountChange (some 10) 100 50)) :=
  ⟨by decide, by decide,
    c6_credit_clamp (some 10) true 100 50 (by decide) (by decide)⟩

/-- C7, counterexample: with credits enabled, C = 0 and the allocation
sequence [(x, 0)], we have C ≥ sum of amounts, yet `allocationsForPayment`
returns the input unchanged (the `creditAmountToApply <= 0` guard takes
the pass-through branch), which is not the empty sequence. -/
theorem c7_full_credit_cex :
    allocationsForPayment true 0 [⟨"x", 0, true⟩] = [⟨"x", 0, true⟩] ∧
      sumAmounts [Allocation.mk "x" 0 true] ≤ 0 ∧
      ([Allocation.mk "x" 0 true] : List Allocation) ≠ [] := by
  refine ⟨by simp [allocationsForPayment], by norm_num [sumAmounts],
    by decide⟩

/-- C7, amended: for every allocation sequence with non-negative amounts
and every credit C > 0 with C ≥ the sum of the amounts,
`allocationsForPayment` with credits enabled yields the empty sequence —
credit fully covers all allocations. -/
theorem c7_full_credit (c : ℚ) (allocs : List Allocation)
    (hc : 0 < c) (hpos : ∀ a ∈ allocs, 0 ≤ a.amount)
    (hsum : sumAmounts allocs ≤ c) :
    allocationsForPayment true c allocs = [] := by
  have hz := distributeCredit_amount_eq_zero allocs c hpos hsum
  have hc' : ¬ c ≤ 0 := not_le.2 hc
  simp only [allocationsForPayment]
  rw [if_neg (by simp [hc'])]
  rw [List.filter_eq_nil_iff]
  intro b hb
  simp [hz b hb]

/-- C7, witness: the spec's scenario — credit 250 over
[(invA, 200), (invB, 30)] yields the empty sequence. -/
theorem c7_full_credit_witness :
    allocationsForPayment true 250
      [⟨"invA", 200, true⟩, ⟨"invB", 30, false⟩] = [] :=
  c7_full_credit 250 [⟨"invA", 200, true⟩, ⟨"invB", 30, false⟩]
    (by norm_num) (by decide) (by norm_num [sumAmounts])

/-- C8, confirmed: every allocation in the output of
`allocationsForPayment` (with or without credit applied) keeps the
invoiceId and isFullPayment flag of an input allocation — credit
distribution changes only the amount field. -/
theorem c8_frame (applyCredits : Bool) (c : ℚ) (allocs : List Allocation) :
    ∀ a ∈ allocationsForPayment applyCredits c allocs,
      ∃ a' ∈ allocs,
        a.invoiceId = a'.invoiceId ∧ a.isFullPayment = a'.isFullPayment := by
  intro a ha
  simp only [allocationsForPayment] at ha
  split_ifs at ha with h
  · exact ⟨a, ha, rfl, rfl⟩
  · exact distributeCredit_mem_frame allocs c a (List.mem_filter.1 ha).1

/-- C8, witness: the surviving allocation (inv2, 30, partial) of the
credit-120 run keeps the invoiceId and flag of input (inv2, 50, partial). -/
theorem c8_frame_witness :
    ∃ a' ∈ ([⟨"inv1", 100, true⟩, ⟨"inv2", 50, false⟩] : List Allocation),
      (Allocation.mk "inv2" 30 false).invoiceId = a'.invoiceId ∧
        (Allocation.mk "inv2" 30 false).isFullPayment = a'.isFullPayment :=
  c8_frame true 120 [⟨"inv1", 100, true⟩, ⟨"inv2", 50, false⟩]
    ⟨"inv2", 30, false⟩
    (by norm_num [allocationsForPayment, distributeCredit])

/-- C9, counterexample: if the invoice id is already in the selection map
(here with a partial 30 entry), selecting it overwrites the entry and
deselecting deletes it, leaving the map empty instead of restoring the
pre-selection entry. -/
theorem c9_select_deselect_cex :
    InvoiceSelector.handleInvoiceSelect [⟨"inv1", 100⟩]
        [("inv1", ⟨"inv1", 30, false⟩)] "inv1" true =
      some [("inv1", ⟨"inv1", 100, true⟩)] ∧
    InvoiceSelector.handleInvoiceSelect [⟨"inv1", 100⟩]
        [("inv1", ⟨"inv1", 100, true⟩)] "inv1" false = some [] ∧
    ([] : InvoiceSelector.SelMap) ≠ [("inv1", ⟨"inv1", 30, false⟩)] :=
  ⟨by decide, by decide, by decide⟩

/-- C9, amended: provided the invoice id is not already a key of the
selection map, selecting the invoice (checked = true) and then
deselecting it (checked = false) returns the map to its pre-selection
state — the entry is removed, not left as a zero-amount entry. -/
theorem c9_select_deselect (invoices : List Invoice)
    (m m' : InvoiceSelector.SelMap) (invoiceId : String)
    (hfresh : ∀ p ∈ m, p.1 ≠ invoiceId)
    (hsel : InvoiceSelector.handleInvoiceSelect invoices m invoiceId true =
      some m') :
    InvoiceSelector.handleInvoiceSelect invoices m' invoiceId false =
      some m := by
  simp only [InvoiceSelector.handleInvoiceSelect, if_true] at hsel
  obtain ⟨inv, hfind, rfl⟩ := Option.map_eq_some'.1 hsel
  have hany : (m.any fun p => p.1 == invoiceId) = false := by
    rw [List.any_eq_false]
    intro p hp
    simp [hfresh p hp]
  have hnotany : ¬ ((m.any fun p => p.1 == invoiceId) = true) := by
    simp [hany]
  simp only [InvoiceSelector.handleInvoiceSelect, if_false,
    InvoiceSelector.mapDelete, Option.some.injEq]
  rw [InvoiceSelector.mapSet, if_neg hnotany, List.filter_append]
  have h1 : m.filter (fun p => p.1 != invoiceId) = m := by
    rw [List.filter_eq_self]
    intro p hp
    simpa using hfresh p hp
  have h2 : List.filter (fun p => p.1 != invoiceId)
      [(invoiceId, Allocation.mk invoiceId inv.balanceDue true)] = [] := by
    simp
  rw [h1, h2, List.append_nil]
  simp

/-- C9, witness: selecting inv1 (balanceDue 100) on a map holding only an
inv0 entry and then deselecting it restores the original map. -/
theorem c9_select_deselect_witness :
    InvoiceSelector.handleInvoiceSelect [⟨"inv1", 100⟩]
        [("inv0", ⟨"inv0", 10, true⟩), ("inv1", ⟨"inv1", 100, true⟩)]
        "inv1" false =
      some [("inv0", ⟨"inv0", 10, true⟩)] :=
  c9_select_deselect [⟨"inv1", 100⟩] [("inv0", ⟨"inv0", 10, true⟩)]
    [("inv0", ⟨"inv0", 10, true⟩), ("inv1", ⟨"inv1", 100, true⟩)] "inv1"
    (by decide) (by decide)

/-- C10, confirmed (credit conservation): for non-negative allocation
amounts and credit C > 0, the sum of amounts in the output of
`allocationsForPayment` with credits enabled equals
sum(A) − min(C, sum(A)) — the distributor removes exactly the credit
consumed. -/
theorem c10_credit_conservation (c : ℚ) (allocs : List Allocation)
    (hc : 0 < c) (hpos : ∀ a ∈ allocs, 0 ≤ a.amount) :
    sumAmounts (allocationsForPayment true c allocs) =
      sumAmounts allocs - min c (sumAmounts allocs) := by
  have hc' : ¬ c ≤ 0 := not_le.2 hc
  simp only [allocationsForPayment]
  rw [if_neg (by simp [hc'])]
  rw [sumAmounts_filter_pos _
    (fun b hb => distributeCredit_amount_nonneg allocs c b hb)]
  exact distributeCredit_sum allocs c hc.le hpos

/-- C10, witness: credit 120 over [(inv1, 100), (inv2, 50)] leaves total
150 − min(120, 150) = 30. -/
theorem c10_credit_conservation_witness :
    sumAmounts (allocationsForPayment true 120
        [⟨"inv1", 100, true⟩, ⟨"inv2", 50, true⟩]) =
      sumAmounts [⟨"inv1", 100, true⟩, ⟨"inv2", 50, true⟩] -
        min 120 (sumAmounts [⟨"inv1", 100, true⟩, ⟨"inv2", 50, true⟩]) :=
  c10_credit_conservation 120 [⟨"inv1", 100, true⟩, ⟨"inv2", 50, true⟩]
    (by norm_num) (by decide)

end Pymt
